import Mathlib

/-!
Verification of the provider data engine of the `edr_provider` crate
(`src/crates/edr_provider/src/data.rs`) against its natural-language
specification.

The engine is shallowly embedded: `ProviderData` mirrors the Rust struct,
and each public operation used by the claims is translated into a pure
Lean function. Machine integers (`u64`) are modelled as `Nat` with
explicit wrapping (`% 2 ^ 64`) where the Rust release build would wrap.
Addresses, hashes and `U256` values are modelled as `Nat`; maps
(`BTreeMap`, `HashMap`, storage tries) are modelled as association
lists. Wall-clock readings (`SystemTime`, `Instant`) are passed to the
operations as explicit `Nat` parameters.

Collaborating components that live outside `data.rs` (the `edr_evm`
state backend, blockchain store, mempool and block producer) are
modelled from the specification; each such definition carries a doc
comment saying so.
-/

deriving instance DecidableEq for Except

namespace EdrProvider

/-- Lookup in an association list keyed by `Nat`, returning the value of
the first entry with the given key. -/
def lookupKey {α : Type} (entries : List (Nat × α)) (key : Nat) : Option α :=
  match entries with
  | [] => none
  | (k, v) :: rest => if k = key then some v else lookupKey rest key

/-- Insert-or-replace in an association list keyed by `Nat`: replaces the
first entry with the given key, or appends a new entry at the end. -/
def setKey {α : Type} (entries : List (Nat × α)) (key : Nat) (value : α) :
    List (Nat × α) :=
  match entries with
  | [] => [(key, value)]
  | (k, v) :: rest =>
    if k = key then (key, value) :: rest else (k, v) :: setKey rest key value

/-- Modulus of 64-bit machine integers. -/
def W64 : Nat := 2 ^ 64

/-- Wrapping `u64` addition, as in a Rust release build. -/
def wadd (a b : Nat) : Nat := (a + b) % W64

/-- Wrapping `u64` subtraction, as in a Rust release build. -/
def wsub (a b : Nat) : Nat := (a + W64 - b % W64) % W64

/-- Ordinal of `SpecId::MERGE` in the total order of hard-fork
milestones; only the order relative to other spec ids matters. -/
def mergeSpecId : Nat := 15

/-- Account data: `AccountInfo` from the state backend. Code is the raw
byte sequence when present. -/
structure AccountInfo where
  balance : Nat
  nonce : Nat
  codeHash : Nat
  code : Option (List Nat)
  deriving DecidableEq

/-- Modelled from the spec: the world state handle of the external state
backend (spec 4.3) — a snapshot of accounts, storage and code exposing
`basic`, `code_by_hash`, `storage`, `state_root` and
`set_account_storage_slot`. -/
structure EvmState where
  accounts : List (Nat × AccountInfo)
  storage : List (Nat × List (Nat × Nat))
  codes : List (Nat × List Nat)
  stateRoot : Nat
  deriving DecidableEq

/-- Modelled from the spec: `basic(addr) -> optional AccountInfo`
(spec 4.3). -/
def EvmState.basic (s : EvmState) (address : Nat) : Option AccountInfo :=
  lookupKey s.accounts address

/-- Modelled from the spec: `code_by_hash(h) -> Bytecode` (spec 4.3);
absent hashes resolve to empty code. -/
def EvmState.codeByHash (s : EvmState) (hash : Nat) : List Nat :=
  (lookupKey s.codes hash).getD []

/-- Modelled from the spec: `storage(addr, idx) -> U256` (spec 4.3);
absent slots read as zero. -/
def EvmState.storageSlotValue (s : EvmState) (address index : Nat) : Nat :=
  ((lookupKey s.storage address).bind (fun slots => lookupKey slots index)).getD 0

/-- Modelled from the spec: `set_account_storage_slot(addr, idx, value)
-> prior_value` of the state backend (spec 4.3) — stores `value` in the
slot and returns the value the slot held before this call. -/
def EvmState.setAccountStorageSlot (s : EvmState) (address index value : Nat) :
    Nat × EvmState :=
  let prior := s.storageSlotValue address index
  let slots := (lookupKey s.storage address).getD []
  (prior, { s with storage := setKey s.storage address (setKey slots index value) })

/-- A storage slot change: `StorageSlot` with an original and a present
value. -/
structure StorageSlot where
  originalValue : Nat
  presentValue : Nat
  deriving DecidableEq

/-- Constructor `StorageSlot::new_changed(old_value, value)`. -/
def StorageSlot.newChanged (oldValue newValue : Nat) : StorageSlot :=
  { originalValue := oldValue, presentValue := newValue }

/-- One account's share of a `StateDiff`: the forced account info plus
forced storage-slot changes. -/
structure AccountChange where
  info : Option AccountInfo
  storageDiff : List (Nat × StorageSlot)
  deriving DecidableEq

/-- Mapping from address to forced changes (`StateDiff`, spec 3). -/
structure StateDiff where
  entries : List (Nat × AccountChange)
  deriving DecidableEq

/-- Modelled from the spec: `apply_account_change(addr, info)` of the
external `StateDiff` (spec 4.2) — records the post-change account info,
keeping previously recorded storage changes for the address. -/
def StateDiff.applyAccountChange (d : StateDiff) (address : Nat)
    (info : AccountInfo) : StateDiff :=
  let change := (lookupKey d.entries address).getD { info := none, storageDiff := [] }
  { entries := setKey d.entries address { change with info := some info } }

/-- Modelled from the spec: `apply_storage_change(addr, idx, slot, info)`
of the external `StateDiff` (spec 4.2) — records the changed slot and the
account info for the address. -/
def StateDiff.applyStorageChange (d : StateDiff) (address index : Nat)
    (slot : StorageSlot) (info : Option AccountInfo) : StateDiff :=
  let change := (lookupKey d.entries address).getD { info := none, storageDiff := [] }
  { entries :=
      setKey d.entries address
        { info := info, storageDiff := setKey change.storageDiff index slot } }

/-- A forced override: a diff plus a synthetic state root
(`StateOverride`, spec 3). -/
structure StateOverride where
  diff : StateDiff
  stateRoot : Nat
  deriving DecidableEq

/-- Ordered mapping from block number to `StateOverride`
(`IrregularState`, spec 3). -/
structure IrregularState where
  overrides : List (Nat × StateOverride)
  deriving DecidableEq

/-- The engine's recording pattern (spec 4.12):
`state_override_at_block_number(n).or_insert_with(root)` followed by
`diff.apply_storage_change`. -/
def IrregularState.applyStorageChangeAt (irr : IrregularState)
    (blockNumber defaultRoot address index : Nat) (slot : StorageSlot)
    (info : Option AccountInfo) : IrregularState :=
  let ov := (lookupKey irr.overrides blockNumber).getD
    { diff := { entries := [] }, stateRoot := defaultRoot }
  { overrides :=
      setKey irr.overrides blockNumber
        { ov with diff := ov.diff.applyStorageChange address index slot info } }

/-- The engine's recording pattern (spec 4.12) for account-level
overrides (`set_balance`, `set_nonce`, `set_code`). -/
def IrregularState.applyAccountChangeAt (irr : IrregularState)
    (blockNumber defaultRoot address : Nat) (info : AccountInfo) : IrregularState :=
  let ov := (lookupKey irr.overrides blockNumber).getD
    { diff := { entries := [] }, stateRoot := defaultRoot }
  { overrides :=
      setKey irr.overrides blockNumber
        { ov with diff := ov.diff.applyAccountChange address info } }

/-- Block header fields used by the engine. -/
structure BlockHeader where
  number : Nat
  parentHash : Nat
  timestamp : Nat
  beneficiary : Nat
  baseFeePerGas : Option Nat
  prevrandao : Option Nat
  gasLimit : Nat
  stateRoot : Nat
  deriving DecidableEq

/-- A block: header plus the hashes of its transactions. -/
structure Block where
  header : BlockHeader
  transactions : List Nat
  deriving DecidableEq

/-- Hash-mixing step: a deterministic injective-style combination used as
a stand-in for keccak; the claims depend only on it being a function of
its inputs. -/
def mixHash (a b : Nat) : Nat := (a * 1000003 + b + 1) % (2 ^ 256)

/-- Deterministic block hash, a stand-in for the canonical block hash:
a function of every header field. -/
def blockHash (b : Block) : Nat :=
  [b.header.number, b.header.parentHash, b.header.timestamp,
   b.header.beneficiary, b.header.baseFeePerGas.getD 0,
   b.header.prevrandao.getD 0, b.header.gasLimit,
   b.header.stateRoot].foldl mixHash 17

/-- One step of the seeded hash chain of `RandomHashGenerator`
(spec 4.1): `next_value` replaces the current value with `H(current)`.
`H` is a deterministic stand-in for the real hash. -/
def hashStep (n : Nat) : Nat := mixHash n 99

/-- The default block used to totalize `last_block` on an empty chain;
the source guarantees the chain is never empty (a genesis block always
exists). -/
def defaultBlock : Block :=
  { header :=
      { number := 0, parentHash := 0, timestamp := 0, beneficiary := 0,
        baseFeePerGas := none, prevrandao := none, gasLimit := 0, stateRoot := 0 },
    transactions := [] }

/-- Modelled from the spec: `last_block()` of the external blockchain
store (spec 4.4) — the last block of the append-only sequence. -/
def lastBlock (chain : List Block) : Block :=
  chain.getLastD defaultBlock

/-- Modelled from the spec: `last_block_number()` of the external
blockchain store (spec 4.4). -/
def lastBlockNumber (chain : List Block) : Nat :=
  (lastBlock chain).header.number

/-- Modelled from the spec: `block_by_number(n)` of the external
blockchain store (spec 4.4). -/
def blockByNumber (chain : List Block) (n : Nat) : Option Block :=
  chain.find? (fun b => decide (b.header.number = n))

/-- Modelled from the spec: `block_by_hash(h)` of the external blockchain
store (spec 4.4). -/
def blockByHashLookup (chain : List Block) (h : Nat) : Option Block :=
  chain.find? (fun b => decide (blockHash b = h))

/-- Modelled from the spec: `revert_to_block(n)` of the external
blockchain store — truncates all blocks with number greater than `n`
(spec 3, 4.4). -/
def revertToBlock (chain : List Block) (n : Nat) : List Block :=
  chain.filter (fun b => decide (b.header.number ≤ n))

/-- Errors of mempool transaction validation (spec 4.5, 7). -/
inductive MemPoolError where
  | knownTransactionHash
  | exceedsBlockGasLimit
  | invalidNonce
  | insufficientFunds
  deriving DecidableEq

/-- A pending transaction, reduced to the fields the mempool validation
reads: hash, recovered sender, nonce, gas limit, max fee and value. -/
structure Transaction where
  hash : Nat
  sender : Nat
  nonce : Nat
  gasLimit : Nat
  maxFeePerGas : Nat
  value : Nat
  deriving DecidableEq

/-- Nonce of an account in a state; absent accounts have nonce 0. -/
def accountNonce (s : EvmState) (address : Nat) : Nat :=
  ((s.basic address).map AccountInfo.nonce).getD 0

/-- Balance of an account in a state; absent accounts have balance 0. -/
def accountBalance (s : EvmState) (address : Nat) : Nat :=
  ((s.basic address).map AccountInfo.balance).getD 0

/-- The mempool (spec 4.5), holding its block gas limit and the
transactions in arrival (FIFO) order. -/
structure MemPool where
  blockGasLimit : Nat
  transactions : List Transaction
  deriving DecidableEq

/-- Whether a transaction is valid against a state: its nonce is at least
the account nonce and the account balance covers max-fee times gas limit
plus value (spec 4.5). -/
def transactionValid (s : EvmState) (tx : Transaction) : Bool :=
  decide (accountNonce s tx.sender ≤ tx.nonce) &&
    decide (tx.maxFeePerGas * tx.gasLimit + tx.value ≤ accountBalance s tx.sender)

/-- Modelled from the spec: `add_transaction(state, tx)` of the external
mempool (spec 4.5) — deduplicates by hash, rejects a gas limit above the
block gas limit, a nonce below the account nonce, or an uncovered cost,
and otherwise appends the transaction. -/
def MemPool.addTransaction (mp : MemPool) (s : EvmState) (tx : Transaction) :
    Except MemPoolError MemPool :=
  if mp.transactions.any (fun t => decide (t.hash = tx.hash)) then
    .error .knownTransactionHash
  else if decide (mp.blockGasLimit < tx.gasLimit) then
    .error .exceedsBlockGasLimit
  else if decide (tx.nonce < accountNonce s tx.sender) then
    .error .invalidNonce
  else if ! decide
      (tx.maxFeePerGas * tx.gasLimit + tx.value ≤ accountBalance s tx.sender) then
    .error .insufficientFunds
  else
    .ok { mp with transactions := mp.transactions ++ [tx] }

/-- Modelled from the spec: `update(state)` of the external mempool
(spec 4.5) — re-validates every transaction against the new state,
dropping those that became invalid. -/
def MemPool.update (mp : MemPool) (s : EvmState) : MemPool :=
  { mp with transactions := mp.transactions.filter (transactionValid s) }

/-- The buffered events of a filter (`FilteredEvents`, spec 4.10). Log
entries are abstracted to identifiers. -/
inductive FilteredEvents where
  | newPendingTransactions (hashes : List Nat)
  | newBlocks (hashes : List Nat)
  | logs (entries : List Nat)
  deriving DecidableEq

/-- A filter registration (spec 4.10). -/
structure Filter where
  events : FilteredEvents
  isSubscription : Bool
  deriving DecidableEq

/-- The `Filter::events` update performed by `add_pending_transaction`:
a `NewPendingTransactions` filter appends the transaction hash, others
are unchanged. -/
def notifyNewPendingTransaction (f : Filter) (txHash : Nat) : Filter :=
  match f.events with
  | .newPendingTransactions events =>
    { f with events := .newPendingTransactions (events ++ [txHash]) }
  | _ => f

/-- A snapshot: the full capture of every mutable sub-component, plus the
`Instant` at which it was taken (spec 3, 4.9). -/
structure Snapshot where
  blockNumber : Nat
  blockTimeOffsetSeconds : Nat
  coinbase : Nat
  irregularState : IrregularState
  memPool : MemPool
  nextBlockBaseFeePerGas : Option Nat
  nextBlockTimestamp : Option Nat
  prevRandaoGenerator : Nat
  state : EvmState
  time : Nat
  deriving DecidableEq

/-- Block spec tags. -/
inductive BlockTag where
  | earliest
  | latest
  | pending
  | safe
  | finalized
  deriving DecidableEq

/-- A block spec: number, tag, or EIP-1898 variant. -/
inductive BlockSpec where
  | number (n : Nat)
  | tag (t : BlockTag)
  | eip1898Hash (blockHash : Nat) (requireCanonical : Bool)
  | eip1898Number (n : Nat)
  deriving DecidableEq

/-- Errors surfaced by the provider engine (spec 7), restricted to the
variants reachable from the embedded operations. -/
inductive ProviderError where
  | invalidBlockNumberOrHash (blockSpec : BlockSpec)
  | invalidBlockTag (blockSpec : BlockSpec) (spec : Nat)
  | timestampLowerThanPrevious (proposed previous : Nat)
  | timestampEqualsPrevious (proposed : Nat)
  | memPool (e : MemPoolError)
  | blockchain
  deriving DecidableEq

/-- The provider data engine: the fields of `ProviderData` that the
embedded operations read or write. The blockchain store is its sequence
of blocks; `specId` is the configured hard-fork ordinal reported by
`blockchain.spec_id()`; `prevRandaoGenerator` is the current value of the
seeded hash chain. -/
structure ProviderData where
  blockchain : List Block
  state : EvmState
  irregularState : IrregularState
  memPool : MemPool
  beneficiary : Nat
  prevRandaoGenerator : Nat
  blockTimeOffsetSeconds : Nat
  nextBlockBaseFeePerGas : Option Nat
  nextBlockTimestamp : Option Nat
  nextSnapshotId : Nat
  snapshots : List (Nat × Snapshot)
  allowBlocksWithSameTimestamp : Bool
  filters : List (Nat × Filter)
  specId : Nat
  deriving DecidableEq

/-- Timestamp of the current tip, read by the timestamp operations. -/
def ProviderData.parentTimestamp (pd : ProviderData) : Nat :=
  (lastBlock pd.blockchain).header.timestamp

/-- Embeds `ProviderData::block_by_block_spec`: resolves a block spec to a
block, `none` for `pending`, or an error. -/
def ProviderData.blockByBlockSpec (pd : ProviderData) (blockSpec : BlockSpec) :
    Except ProviderError (Option Block) :=
  match blockSpec with
  | .number n =>
    match blockByNumber pd.blockchain n with
    | some b => .ok (some b)
    | none => .error (.invalidBlockNumberOrHash blockSpec)
  | .tag .earliest =>
    -- The source asserts that the genesis block always exists.
    .ok (some ((blockByNumber pd.blockchain 0).getD defaultBlock))
  | .tag .finalized =>
    if mergeSpecId ≤ pd.specId then .ok (some (lastBlock pd.blockchain))
    else .error (.invalidBlockTag blockSpec pd.specId)
  | .tag .safe =>
    if mergeSpecId ≤ pd.specId then .ok (some (lastBlock pd.blockchain))
    else .error (.invalidBlockTag blockSpec pd.specId)
  | .tag .latest => .ok (some (lastBlock pd.blockchain))
  | .tag .pending => .ok none
  | .eip1898Hash h _ =>
    match blockByHashLookup pd.blockchain h with
    | some b => .ok (some b)
    | none => .error (.invalidBlockNumberOrHash blockSpec)
  | .eip1898Number n =>
    match blockByNumber pd.blockchain n with
    | some b => .ok (some b)
    | none => .error (.invalidBlockNumberOrHash blockSpec)

/-- Embeds `ProviderData::set_next_block_timestamp`: compares the proposed
timestamp with the tip's and either fails or arms the next-block
timestamp. -/
def ProviderData.setNextBlockTimestamp (pd : ProviderData) (timestamp : Nat) :
    Except ProviderError (Nat × ProviderData) :=
  let previous := pd.parentTimestamp
  if decide (timestamp < previous) then
    .error (.timestampLowerThanPrevious timestamp previous)
  else if decide (timestamp = previous) then
    .error (.timestampEqualsPrevious timestamp)
  else
    .ok (timestamp, { pd with nextBlockTimestamp := some timestamp })

/-- The final adjustment of `ProviderData::next_block_timestamp`: a
candidate equal to the tip's timestamp is incremented by one when blocks
with the same timestamp are disallowed. -/
def ProviderData.adjustSameTimestamp (pd : ProviderData) (candidate : Nat) : Nat :=
  if decide (candidate = pd.parentTimestamp) && ! pd.allowBlocksWithSameTimestamp
  then wadd candidate 1
  else candidate

/-- Embeds `ProviderData::next_block_timestamp`: computes the timestamp for the
next block and an optional new block-time offset, from the current
wall-clock seconds and an optional caller-supplied timestamp. The
caller-supplied branch mirrors `checked_sub`, which fails exactly when
the proposed timestamp is below the tip's. -/
def ProviderData.nextBlockTimestampFn (pd : ProviderData)
    (currentTimestamp : Nat) (timestamp : Option Nat) :
    Except ProviderError (Nat × Option Nat) :=
  match timestamp with
  | some t =>
    if decide (t < pd.parentTimestamp) then
      .error (.timestampLowerThanPrevious t pd.parentTimestamp)
    else
      .ok (pd.adjustSameTimestamp t, some (wsub t currentTimestamp))
  | none =>
    match pd.nextBlockTimestamp with
    | some n => .ok (pd.adjustSameTimestamp n, some (wsub n currentTimestamp))
    | none =>
      .ok (pd.adjustSameTimestamp (wadd currentTimestamp pd.blockTimeOffsetSeconds),
           none)

/-- Modelled from the spec: `insert_block(block, state_diff)` of the
external blockchain store (spec 4.4) — fails cleanly on parent mismatch,
otherwise appends the block. -/
def insertBlock (chain : List Block) (b : Block) :
    Except ProviderError (List Block) :=
  if decide (b.header.parentHash = blockHash (lastBlock chain)) then
    .ok (chain ++ [b])
  else
    .error .blockchain

/-- The result of the block producer: the built block and the resulting
state (`MineBlockResultAndState`; execution results, traces and the
state diff are not read by any claim). -/
structure MineResult where
  block : Block
  state : EvmState
  deriving DecidableEq

/-- Modelled from the spec: the external block producer `mine_block`
(spec 4.6) — builds the header of the next block (number one above the
parent, parent hash the hash of the parent, the given timestamp, the
engine's beneficiary, base fee from the explicit override else inherited
from the parent, the given prevrandao) and drains the mempool in FIFO
order. Transaction execution is abstracted: the resulting state is
returned as given, which no claim settled against this model reads. -/
def ProviderData.mineBlock (pd : ProviderData) (timestamp : Nat)
    (prevrandao : Option Nat) : MineResult :=
  let parent := lastBlock pd.blockchain
  let baseFee :=
    match pd.nextBlockBaseFeePerGas with
    | some fee => some fee
    | none => parent.header.baseFeePerGas
  { block :=
      { header :=
          { number := parent.header.number + 1,
            parentHash := blockHash parent,
            timestamp := timestamp,
            beneficiary := pd.beneficiary,
            baseFeePerGas := baseFee,
            prevrandao := prevrandao,
            gasLimit := pd.memPool.blockGasLimit,
            stateRoot := pd.state.stateRoot },
        transactions := pd.memPool.transactions.map Transaction.hash },
    state := pd.state }

/-- Embeds `ProviderData::mine_and_commit_block`: computes the timestamp,
draws a prevrandao post-MERGE, runs the block producer, applies the new
offset, clears the next-block base fee and timestamp, inserts the block,
updates the mempool and replaces the current state. -/
def ProviderData.mineAndCommitBlock (pd : ProviderData)
    (currentTimestamp : Nat) (timestamp : Option Nat) :
    Except ProviderError (Block × ProviderData) :=
  match pd.nextBlockTimestampFn currentTimestamp timestamp with
  | .error e => .error e
  | .ok (blockTimestamp, newOffset) =>
    let prevrandao :=
      if decide (mergeSpecId ≤ pd.specId) then some (hashStep pd.prevRandaoGenerator)
      else none
    let generator :=
      if decide (mergeSpecId ≤ pd.specId) then hashStep pd.prevRandaoGenerator
      else pd.prevRandaoGenerator
    let result := pd.mineBlock blockTimestamp prevrandao
    match insertBlock pd.blockchain result.block with
    | .error e => .error e
    | .ok chain =>
      .ok (result.block,
        { pd with
          blockchain := chain,
          state := result.state,
          memPool := pd.memPool.update result.state,
          prevRandaoGenerator := generator,
          blockTimeOffsetSeconds := newOffset.getD pd.blockTimeOffsetSeconds,
          nextBlockBaseFeePerGas := none,
          nextBlockTimestamp := none })

/-- Embeds `ProviderData::add_pending_transaction`: adds the transaction to the
mempool (which validates it) and, on success, appends its hash to every
`NewPendingTransactions` filter. -/
def ProviderData.addPendingTransaction (pd : ProviderData) (tx : Transaction) :
    Except ProviderError (Nat × ProviderData) :=
  match pd.memPool.addTransaction pd.state tx with
  | .error e => .error (.memPool e)
  | .ok pool =>
    .ok (tx.hash,
      { pd with
        memPool := pool,
        filters := pd.filters.map
          (fun e => (e.1, notifyNewPendingTransaction e.2 tx.hash)) })

/-- Embeds `ProviderData::make_snapshot`: captures every mutable sub-component
together with the current `Instant`, stores it under the next snapshot
id, and increments the id counter. -/
def ProviderData.makeSnapshot (pd : ProviderData) (instantNow : Nat) :
    Nat × ProviderData :=
  let id := pd.nextSnapshotId
  let snapshot : Snapshot :=
    { blockNumber := lastBlockNumber pd.blockchain,
      blockTimeOffsetSeconds := pd.blockTimeOffsetSeconds,
      coinbase := pd.beneficiary,
      irregularState := pd.irregularState,
      memPool := pd.memPool,
      nextBlockBaseFeePerGas := pd.nextBlockBaseFeePerGas,
      nextBlockTimestamp := pd.nextBlockTimestamp,
      prevRandaoGenerator := pd.prevRandaoGenerator,
      state := pd.state,
      time := instantNow }
  (id, { pd with
    nextSnapshotId := id + 1,
    snapshots := setKey pd.snapshots id snapshot })

/-- Embeds `ProviderData::revert_to_snapshot`: splits off every snapshot with id
at least the requested one (`BTreeMap::split_off`); if the requested id
is among them, restores the captured state — recomputing the block-time
offset from the elapsed `Instant` seconds and reverting the blockchain to
the snapshot's block number — and returns `true`, else returns `false`. -/
def ProviderData.revertToSnapshot (pd : ProviderData) (instantNow snapshotId : Nat) :
    Bool × ProviderData :=
  let removedSnapshots := pd.snapshots.filter (fun e => decide (snapshotId ≤ e.1))
  let keptSnapshots := pd.snapshots.filter (fun e => decide (e.1 < snapshotId))
  match lookupKey removedSnapshots snapshotId with
  | some snapshot =>
    let durationSinceSnapshot := instantNow - snapshot.time
    (true,
      { pd with
        snapshots := keptSnapshots,
        blockTimeOffsetSeconds :=
          wadd snapshot.blockTimeOffsetSeconds durationSinceSnapshot,
        beneficiary := snapshot.coinbase,
        blockchain := revertToBlock pd.blockchain snapshot.blockNumber,
        irregularState := snapshot.irregularState,
        memPool := snapshot.memPool,
        nextBlockBaseFeePerGas := snapshot.nextBlockBaseFeePerGas,
        nextBlockTimestamp := snapshot.nextBlockTimestamp,
        prevRandaoGenerator := snapshot.prevRandaoGenerator,
        state := snapshot.state })
  | none => (false, { pd with snapshots := keptSnapshots })

/-- Embeds `ProviderData::set_account_storage_slot`, translated exactly as
written in the source: the underlying state setter is invoked twice, the
prior value is taken from the second invocation, and the changed slot is
recorded into the irregular-state override at the current block number. -/
def ProviderData.setAccountStorageSlot (pd : ProviderData)
    (address index value : Nat) : ProviderData :=
  let first := pd.state.setAccountStorageSlot address index value
  let second := first.2.setAccountStorageSlot address index value
  let oldValue := second.1
  let newState := second.2
  let slot := StorageSlot.newChanged oldValue value
  let accountInfo := newState.basic address
  let blockNumber := lastBlockNumber pd.blockchain
  let stateRoot := newState.stateRoot
  { pd with
    state := newState,
    irregularState :=
      pd.irregularState.applyStorageChangeAt blockNumber stateRoot address index
        slot accountInfo }

/-- The read closure of `ProviderData::balance`, executed in the state
resolved for the requested block spec: absent accounts read as balance
zero. -/
def balanceRead (s : EvmState) (address : Nat) : Except ProviderError Nat :=
  .ok (((s.basic address).map AccountInfo.balance).getD 0)

/-- The read closure of `ProviderData::get_transaction_count`, executed
in the state resolved for the requested block spec: absent accounts read
as nonce zero. -/
def getTransactionCountRead (s : EvmState) (address : Nat) :
    Except ProviderError Nat :=
  .ok (((s.basic address).map AccountInfo.nonce).getD 0)

/-- The read closure of `ProviderData::get_code`, executed in the state
resolved for the requested block spec: absent accounts read as empty
code, present accounts resolve their code hash through the state. -/
def getCodeRead (s : EvmState) (address : Nat) :
    Except ProviderError (List Nat) :=
  .ok (match s.basic address with
    | none => []
    | some info => s.codeByHash info.codeHash)

/-- A concrete genesis block used by the witnesses. -/
def exGenesis : Block :=
  { header :=
      { number := 0, parentHash := 0, timestamp := 10, beneficiary := 0,
        baseFeePerGas := some 7, prevrandao := none, gasLimit := 30000000,
        stateRoot := 3 },
    transactions := [] }

/-- A concrete world state used by the witnesses: account 1 exists with
balance 1000000000000, account 2 is absent. -/
def exState : EvmState :=
  { accounts :=
      [(1, { balance := 1000000000000, nonce := 0, codeHash := 0, code := none })],
    storage := [], codes := [], stateRoot := 3 }

/-- A concrete engine used by the witnesses: a fresh post-MERGE engine
with only the genesis block. -/
def exProvider : ProviderData :=
  { blockchain := [exGenesis],
    state := exState,
    irregularState := { overrides := [] },
    memPool := { blockGasLimit := 30000000, transactions := [] },
    beneficiary := 5,
    prevRandaoGenerator := 42,
    blockTimeOffsetSeconds := 0,
    nextBlockBaseFeePerGas := none,
    nextBlockTimestamp := none,
    nextSnapshotId := 1,
    snapshots := [],
    allowBlocksWithSameTimestamp := false,
    filters := [],
    specId := 15 }

/-- The same engine configured pre-MERGE. -/
def exProviderPreMerge : ProviderData :=
  { exProvider with specId := 14 }

/-- Entries with the requested key survive the `split_off` filter, so
looking the key up in the removed part agrees with looking it up in the
whole registry. -/
theorem lookupKey_filter_ge {α : Type} (l : List (Nat × α)) (k : Nat) :
    lookupKey (l.filter (fun e => decide (k ≤ e.1))) k = lookupKey l k := by
  induction l with
  | nil => rfl
  | cons head tail ih =>
    obtain ⟨a, b⟩ := head
    by_cases hak : a = k
    · subst hak
      simp [List.filter_cons, lookupKey]
    · by_cases hle : k ≤ a
      · simp [List.filter_cons, hle, lookupKey, hak, ih]
      · simp [List.filter_cons, hle, lookupKey, hak, ih]

/-- Insert-or-replace followed by lookup of the same key finds the
inserted value. -/
theorem lookupKey_setKey {α : Type} (l : List (Nat × α)) (k : Nat) (v : α) :
    lookupKey (setKey l k v) k = some v := by
  induction l with
  | nil => simp [setKey, lookupKey]
  | cons head tail ih =>
    obtain ⟨a, b⟩ := head
    by_cases hak : a = k
    · subst hak
      simp [setKey, lookupKey]
    · simp [setKey, hak, lookupKey, ih]

/-- The last element of a list extended with one element. -/
theorem getLastD_append_single {α : Type} (l : List α) (a d : α) :
    (l ++ [a]).getLastD d = a := by
  rw [List.getLastD_eq_getLast?, List.getLast?_concat]
  rfl

/-- Claim C6: `set_next_block_timestamp(T)` fails with
`TimestampLowerThanPrevious` when `T` is below the tip's timestamp,
fails with `TimestampEqualsPrevious` when it equals it, and otherwise
arms the next-block timestamp to `T` and returns `T`. -/
theorem set_next_block_timestamp_boundaries (pd : ProviderData) (T : Nat) :
    (T < pd.parentTimestamp →
      pd.setNextBlockTimestamp T =
        .error (.timestampLowerThanPrevious T pd.parentTimestamp)) ∧
    (T = pd.parentTimestamp →
      pd.setNextBlockTimestamp T = .error (.timestampEqualsPrevious T)) ∧
    (pd.parentTimestamp < T →
      pd.setNextBlockTimestamp T =
        .ok (T, { pd with nextBlockTimestamp := some T })) := by
  refine ⟨fun h => ?_, fun h => ?_, fun h => ?_⟩
  · simp [ProviderData.setNextBlockTimestamp, h]
  · simp [ProviderData.setNextBlockTimestamp, h]
  · have h1 : ¬ T < pd.parentTimestamp := by omega
    have h2 : ¬ T = pd.parentTimestamp := by omega
    simp [ProviderData.setNextBlockTimestamp, h1, h2]

/-- Witness for C6: all three boundary behaviors at the concrete engine
whose tip has timestamp 10. -/
theorem set_next_block_timestamp_boundaries_witness :
    exProvider.setNextBlockTimestamp 9 =
      .error (.timestampLowerThanPrevious 9 10) ∧
    exProvider.setNextBlockTimestamp 10 =
      .error (.timestampEqualsPrevious 10) ∧
    exProvider.setNextBlockTimestamp 11 =
      .ok (11, { exProvider with nextBlockTimestamp := some 11 }) :=
  ⟨(set_next_block_timestamp_boundaries exProvider 9).1 (by decide),
   (set_next_block_timestamp_boundaries exProvider 10).2.1 (by decide),
   (set_next_block_timestamp_boundaries exProvider 11).2.2 (by decide)⟩

/-- Claim C7: resolving the `Safe` or `Finalized` block spec returns the
latest block when the configured spec is at or after MERGE, and fails
with `InvalidBlockTag` carrying the block spec and the current spec when
it is before MERGE. -/
theorem safe_finalized_block_resolution (pd : ProviderData) :
    (mergeSpecId ≤ pd.specId →
      pd.blockByBlockSpec (.tag .safe) = .ok (some (lastBlock pd.blockchain)) ∧
      pd.blockByBlockSpec (.tag .finalized) =
        .ok (some (lastBlock pd.blockchain))) ∧
    (pd.specId < mergeSpecId →
      pd.blockByBlockSpec (.tag .safe) =
        .error (.invalidBlockTag (.tag .safe) pd.specId) ∧
      pd.blockByBlockSpec (.tag .finalized) =
        .error (.invalidBlockTag (.tag .finalized) pd.specId)) := by
  refine ⟨fun h => ?_, fun h => ?_⟩
  · constructor <;> simp [ProviderData.blockByBlockSpec, h]
  · have h1 : ¬ mergeSpecId ≤ pd.specId := by omega
    constructor <;> simp [ProviderData.blockByBlockSpec, h1]

/-- Witness for C7: the post-MERGE engine resolves both tags to the
genesis tip; the pre-MERGE engine fails with `InvalidBlockTag`. -/
theorem safe_finalized_block_resolution_witness :
    (exProvider.blockByBlockSpec (.tag .safe) = .ok (some exGenesis) ∧
      exProvider.blockByBlockSpec (.tag .finalized) = .ok (some exGenesis)) ∧
    (exProviderPreMerge.blockByBlockSpec (.tag .safe) =
        .error (.invalidBlockTag (.tag .safe) 14) ∧
      exProviderPreMerge.blockByBlockSpec (.tag .finalized) =
        .error (.invalidBlockTag (.tag .finalized) 14)) :=
  ⟨(safe_finalized_block_resolution exProvider).1 (by decide),
   (safe_finalized_block_resolution exProviderPreMerge).2 (by decide)⟩

/-- Claim C10: for an address with no account entry in the state resolved
for the requested block spec, `balance` returns 0,
`get_transaction_count` returns 0 and `get_code` returns the empty byte
sequence, none of them returning an error. -/
theorem absent_account_read_defaults (s : EvmState) (address : Nat)
    (h : s.basic address = none) :
    balanceRead s address = .ok 0 ∧
    getTransactionCountRead s address = .ok 0 ∧
    getCodeRead s address = .ok [] := by
  refine ⟨?_, ?_, ?_⟩ <;>
    simp [balanceRead, getTransactionCountRead, getCodeRead, h]

/-- Witness for C10: the defaults at the concrete state, in which address
2 has no account entry. -/
theorem absent_account_read_defaults_witness :
    balanceRead exState 2 = .ok 0 ∧
    getTransactionCountRead exState 2 = .ok 0 ∧
    getCodeRead exState 2 = .ok [] :=
  absent_account_read_defaults exState 2 (by decide)

/-- The concrete engine with a pre-armed next-block timestamp. -/
def exProviderArmed : ProviderData :=
  { exProvider with nextBlockTimestamp := some 42 }

/-- Counterexample for C2: the claim requires a caller-supplied timestamp
strictly above the parent timestamp (10), failing with
`TimestampLowerThanPrevious` otherwise; but at the equal timestamp 10 the
source succeeds — `checked_sub` only fails strictly below — and returns
the candidate incremented to 11 with new offset 10 − 5 = 5. -/
theorem next_block_timestamp_equal_parent_accepted :
    exProvider.nextBlockTimestampFn 5 (some 10) = .ok (11, some 5) ∧
    exProvider.nextBlockTimestampFn 5 (some 10) ≠
      .error (.timestampLowerThanPrevious 10 10) := by
  constructor <;> decide

/-- Claim C2 (amended): given parent timestamp `P`, wall clock `C` and
offset `O`, `next_block_timestamp(t)`: with caller timestamp `T` it
requires `T ≥ P` (failing with `TimestampLowerThanPrevious` when
`T < P`) and returns candidate `T` with new offset `T − C`; else with a
pre-armed timestamp `N` it returns candidate `N` with new offset `N − C`;
else it returns candidate `C + O` with no offset change; and in every
case a candidate equal to `P` is incremented by 1 when same-timestamp
blocks are disallowed (subtraction and addition wrap as `u64`). -/
theorem next_block_timestamp_cases (pd : ProviderData) (C T N : Nat) :
    (T < pd.parentTimestamp →
      pd.nextBlockTimestampFn C (some T) =
        .error (.timestampLowerThanPrevious T pd.parentTimestamp)) ∧
    (pd.parentTimestamp ≤ T →
      pd.nextBlockTimestampFn C (some T) =
        .ok (pd.adjustSameTimestamp T, some (wsub T C))) ∧
    (pd.nextBlockTimestamp = some N →
      pd.nextBlockTimestampFn C none =
        .ok (pd.adjustSameTimestamp N, some (wsub N C))) ∧
    (pd.nextBlockTimestamp = none →
      pd.nextBlockTimestampFn C none =
        .ok (pd.adjustSameTimestamp (wadd C pd.blockTimeOffsetSeconds), none)) := by
  refine ⟨fun h => ?_, fun h => ?_, fun h => ?_, fun h => ?_⟩
  · simp [ProviderData.nextBlockTimestampFn, h]
  · have h1 : ¬ T < pd.parentTimestamp := by omega
    simp [ProviderData.nextBlockTimestampFn, h1]
  · simp [ProviderData.nextBlockTimestampFn, h]
  · simp [ProviderData.nextBlockTimestampFn, h]

/-- Witness for C2 (amended): all four branches at concrete inputs — a
too-low caller timestamp errors, an accepted caller timestamp yields its
offset, a pre-armed timestamp is used, and otherwise the wall clock plus
offset is used (here hitting the parent timestamp 10 and therefore
incremented to 11). -/
theorem next_block_timestamp_cases_witness :
    exProvider.nextBlockTimestampFn 5 (some 9) =
      .error (.timestampLowerThanPrevious 9 10) ∧
    exProvider.nextBlockTimestampFn 5 (some 12) = .ok (12, some 7) ∧
    exProviderArmed.nextBlockTimestampFn 5 none = .ok (42, some 37) ∧
    exProvider.nextBlockTimestampFn 10 none = .ok (11, none) :=
  ⟨(next_block_timestamp_cases exProvider 5 9 0).1 (by decide),
   (next_block_timestamp_cases exProvider 5 12 0).2.1 (by decide),
   (next_block_timestamp_cases exProviderArmed 5 0 42).2.2.1 (by decide),
   (next_block_timestamp_cases exProvider 10 0 0).2.2.2 (by decide)⟩

/-- Claim C1: in the source, `set_account_storage_slot(1, 0, 5)` on a
state whose slot (1, 0) holds 0 invokes the underlying setter twice; the
prior value is taken from the second invocation, which already sees the
new value, so the irregular-state override records the changed slot
(5, 5) instead of the (0, 5) the claim specifies. -/
theorem set_account_storage_slot_double_invocation :
    exProvider.state.storageSlotValue 1 0 = 0 ∧
    ((lookupKey
        (exProvider.setAccountStorageSlot 1 0 5).irregularState.overrides
        0).bind
      (fun ov => lookupKey ov.diff.entries 1)).bind
        (fun ch => lookupKey ch.storageDiff 0) =
      some (StorageSlot.newChanged 5 5) ∧
    StorageSlot.newChanged 5 5 ≠ StorageSlot.newChanged 0 5 := by
  refine ⟨by decide, by decide, by decide⟩

/-- The concrete engine with one `NewBlocks` polling filter whose buffer
is empty. -/
def exProviderWithBlockFilter : ProviderData :=
  { exProvider with
    filters := [(1, { events := .newBlocks [], isSubscription := false })] }

/-- The concrete engine with one `NewPendingTransactions` polling filter
whose buffer is empty. -/
def exProviderWithPendingFilter : ProviderData :=
  { exProvider with
    filters :=
      [(1, { events := .newPendingTransactions [], isSubscription := false })] }

/-- A concrete valid transaction from the existing account 1. -/
def exTransaction : Transaction :=
  { hash := 77, sender := 1, nonce := 0, gasLimit := 21000,
    maxFeePerGas := 1, value := 1 }

/-- Counterexample for C3: mining and committing a block succeeds on the
engine holding a `NewBlocks` filter, yet the filter's buffer stays empty
— the source's `mine_and_commit_block` never appends the new block's
hash (nor logs) to any filter. -/
theorem mine_and_commit_block_leaves_block_filter_empty :
    (exProviderWithBlockFilter.mineAndCommitBlock 100 none).map
        (fun r => lookupKey r.2.filters 1) =
      .ok (some { events := FilteredEvents.newBlocks [],
                  isSubscription := false }) := by
  decide

/-- Claim C3 (amended): after a successful `add_pending_transaction`
every `NewPendingTransactions` filter's buffer has the transaction hash
appended (and the returned hash is the transaction's); after a successful
`mine_and_commit_block` every filter buffer — `NewBlocks` and `Logs`
included — is left unchanged. -/
theorem filter_notification_add_vs_mine (pd qd : ProviderData)
    (tx : Transaction) (C : Nat) (ts : Option Nat) :
    (∀ h pd1, pd.addPendingTransaction tx = .ok (h, pd1) →
      h = tx.hash ∧
      pd1.filters =
        pd.filters.map
          (fun e => (e.1, notifyNewPendingTransaction e.2 tx.hash))) ∧
    (∀ blk qd1, qd.mineAndCommitBlock C ts = .ok (blk, qd1) →
      qd1.filters = qd.filters) := by
  constructor
  · intro h pd1 heq
    unfold ProviderData.addPendingTransaction at heq
    split at heq
    · cases heq
    · cases heq
      exact ⟨rfl, rfl⟩
  · intro blk qd1 heq
    unfold ProviderData.mineAndCommitBlock at heq
    split at heq
    · cases heq
    · split at heq <;> dsimp only at heq <;> split at heq <;> cases heq <;> rfl

/-- The engine after the concrete successful `add_pending_transaction`. -/
def exAddedProvider : ProviderData :=
  (((exProviderWithPendingFilter.addPendingTransaction exTransaction).toOption).map
    Prod.snd).getD exProvider

/-- The block and engine after the concrete successful
`mine_and_commit_block`. -/
def exMineOutcome : Block × ProviderData :=
  ((exProviderWithBlockFilter.mineAndCommitBlock 100 none).toOption).getD
    (defaultBlock, exProvider)

/-- Witness for C3 (amended): at the concrete engines, adding the valid
transaction appends its hash to the pending-transaction filter, and
mining leaves the block filter untouched. -/
theorem filter_notification_add_vs_mine_witness :
    exAddedProvider.filters =
      exProviderWithPendingFilter.filters.map
        (fun e => (e.1, notifyNewPendingTransaction e.2 exTransaction.hash)) ∧
    exMineOutcome.2.filters = exProviderWithBlockFilter.filters :=
  ⟨((filter_notification_add_vs_mine exProviderWithPendingFilter
        exProviderWithBlockFilter exTransaction 100 none).1
      exTransaction.hash exAddedProvider (by decide)).2,
   (filter_notification_add_vs_mine exProviderWithPendingFilter
        exProviderWithBlockFilter exTransaction 100 none).2
      exMineOutcome.1 exMineOutcome.2 (by decide)⟩

/-- Claim C5: `revert_to_snapshot(k)` removes the snapshot with id `k`
and every snapshot with a larger id, returns true exactly when a snapshot
with id `k` existed, and in that case restores the captured state,
including reverting the blockchain to the snapshot's block number. -/
theorem revert_to_snapshot_semantics (pd : ProviderData) (now k : Nat) :
    (pd.revertToSnapshot now k).2.snapshots =
      pd.snapshots.filter (fun e => decide (e.1 < k)) ∧
    ((pd.revertToSnapshot now k).1 = true ↔
      (lookupKey pd.snapshots k).isSome = true) ∧
    (∀ snap, lookupKey pd.snapshots k = some snap →
      (pd.revertToSnapshot now k).2.blockchain =
        revertToBlock pd.blockchain snap.blockNumber ∧
      (pd.revertToSnapshot now k).2.state = snap.state ∧
      (pd.revertToSnapshot now k).2.memPool = snap.memPool ∧
      (pd.revertToSnapshot now k).2.irregularState = snap.irregularState ∧
      (pd.revertToSnapshot now k).2.beneficiary = snap.coinbase ∧
      (pd.revertToSnapshot now k).2.nextBlockBaseFeePerGas =
        snap.nextBlockBaseFeePerGas ∧
      (pd.revertToSnapshot now k).2.nextBlockTimestamp =
        snap.nextBlockTimestamp ∧
      (pd.revertToSnapshot now k).2.prevRandaoGenerator =
        snap.prevRandaoGenerator ∧
      (pd.revertToSnapshot now k).2.blockTimeOffsetSeconds =
        wadd snap.blockTimeOffsetSeconds (now - snap.time)) := by
  simp only [ProviderData.revertToSnapshot]
  rw [lookupKey_filter_ge]
  cases hk : lookupKey pd.snapshots k with
  | none => simp
  | some snap => simp

/-- The engine right after taking one snapshot at instant 50. -/
def exProviderSnapshotted : ProviderData :=
  (exProvider.makeSnapshot 50).2

/-- The snapshot stored in `exProviderSnapshotted` under id 1. -/
def exSnapshot : Snapshot :=
  { blockNumber := 0,
    blockTimeOffsetSeconds := 0,
    coinbase := 5,
    irregularState := { overrides := [] },
    memPool := { blockGasLimit := 30000000, transactions := [] },
    nextBlockBaseFeePerGas := none,
    nextBlockTimestamp := none,
    prevRandaoGenerator := 42,
    state := exState,
    time := 50 }

/-- Witness for C5: reverting the concretely snapshotted engine to id 1
empties the registry, reports the id as found, and restores the captured
components. -/
theorem revert_to_snapshot_semantics_witness :
    (exProviderSnapshotted.revertToSnapshot 60 1).2.snapshots = [] ∧
    ((exProviderSnapshotted.revertToSnapshot 60 1).1 = true ↔
      (lookupKey exProviderSnapshotted.snapshots 1).isSome = true) ∧
    (exProviderSnapshotted.revertToSnapshot 60 1).2.state = exSnapshot.state :=
  ⟨(revert_to_snapshot_semantics exProviderSnapshotted 60 1).1,
   (revert_to_snapshot_semantics exProviderSnapshotted 60 1).2.1,
   (((revert_to_snapshot_semantics exProviderSnapshotted 60 1).2.2 exSnapshot
      (by decide)).2.1)⟩

/-- Claim C9: reverting to an id that is absent from the registry but not
above every existing id returns false, still deletes every snapshot whose
id is at least the requested one, and leaves every other engine component
unchanged. -/
theorem revert_to_missing_snapshot (pd : ProviderData) (now k : Nat)
    (habsent : lookupKey pd.snapshots k = none)
    (_hbelow : ∃ e ∈ pd.snapshots, k ≤ e.1) :
    pd.revertToSnapshot now k =
      (false,
        { pd with
          snapshots := pd.snapshots.filter (fun e => decide (e.1 < k)) }) := by
  simp only [ProviderData.revertToSnapshot]
  rw [lookupKey_filter_ge, habsent]

/-- Witness for C9: the concretely snapshotted engine holds only id 1, so
reverting to the absent id 0 returns false and clears the registry while
changing nothing else. -/
theorem revert_to_missing_snapshot_witness :
    exProviderSnapshotted.revertToSnapshot 60 0 =
      (false, { exProviderSnapshotted with snapshots := [] }) :=
  revert_to_missing_snapshot exProviderSnapshotted 60 0 (by decide)
    ⟨(1, exSnapshot), by decide, by decide⟩

/-- Taking a snapshot at instant `t1` and immediately reverting to the
returned id at instant `t2`. -/
def snapshotRoundtrip (pd : ProviderData) (t1 t2 : Nat) : Bool × ProviderData :=
  let r := pd.makeSnapshot t1
  r.2.revertToSnapshot t2 r.1

/-- Claim C4: `make_snapshot` immediately followed by
`revert_to_snapshot` of the returned id succeeds and restores every
observable engine property — blockchain (hence block number),
beneficiary, irregular state, mempool, next-block base fee, next-block
timestamp, randomness source and world state — except the block-time
offset, which becomes the snapshot offset plus the wall-clock seconds
elapsed since the snapshot. -/
theorem snapshot_revert_restores_engine (pd : ProviderData) (t1 t2 : Nat)
    (hblk : ∀ b ∈ pd.blockchain, b.header.number ≤ lastBlockNumber pd.blockchain)
    (hoff : pd.blockTimeOffsetSeconds + (t2 - t1) < W64) :
    (snapshotRoundtrip pd t1 t2).1 = true ∧
    (snapshotRoundtrip pd t1 t2).2.blockchain = pd.blockchain ∧
    lastBlockNumber (snapshotRoundtrip pd t1 t2).2.blockchain =
      lastBlockNumber pd.blockchain ∧
    (snapshotRoundtrip pd t1 t2).2.beneficiary = pd.beneficiary ∧
    (snapshotRoundtrip pd t1 t2).2.irregularState = pd.irregularState ∧
    (snapshotRoundtrip pd t1 t2).2.memPool = pd.memPool ∧
    (snapshotRoundtrip pd t1 t2).2.nextBlockBaseFeePerGas =
      pd.nextBlockBaseFeePerGas ∧
    (snapshotRoundtrip pd t1 t2).2.nextBlockTimestamp = pd.nextBlockTimestamp ∧
    (snapshotRoundtrip pd t1 t2).2.prevRandaoGenerator = pd.prevRandaoGenerator ∧
    (snapshotRoundtrip pd t1 t2).2.state = pd.state ∧
    (snapshotRoundtrip pd t1 t2).2.blockTimeOffsetSeconds =
      pd.blockTimeOffsetSeconds + (t2 - t1) := by
  have hchain :
      revertToBlock pd.blockchain (lastBlockNumber pd.blockchain) = pd.blockchain := by
    apply List.filter_eq_self.mpr
    intro b hb
    simpa using hblk b hb
  simp only [snapshotRoundtrip, ProviderData.makeSnapshot,
    ProviderData.revertToSnapshot]
  rw [lookupKey_filter_ge, lookupKey_setKey]
  simp [hchain, wadd, Nat.mod_eq_of_lt hoff]

/-- Witness for C4: the round trip at the concrete engine, snapshotting
at instant 50 and reverting at instant 60, restores everything and adds
the 10 elapsed seconds to the offset. -/
theorem snapshot_revert_restores_engine_witness :
    (snapshotRoundtrip exProvider 50 60).1 = true ∧
    (snapshotRoundtrip exProvider 50 60).2.blockchain = exProvider.blockchain ∧
    (snapshotRoundtrip exProvider 50 60).2.blockTimeOffsetSeconds =
      exProvider.blockTimeOffsetSeconds + 10 :=
  ⟨(snapshot_revert_restores_engine exProvider 50 60 (by decide) (by decide)).1,
   (snapshot_revert_restores_engine exProvider 50 60 (by decide) (by decide)).2.1,
   (snapshot_revert_restores_engine exProvider 50 60 (by decide)
      (by decide)).2.2.2.2.2.2.2.2.2.2⟩

/-- Inserting the block built by the block producer always passes the
parent-hash check: its parent hash is the hash of the current tip by
construction. -/
theorem insertBlock_mineBlock (pd : ProviderData) (bt : Nat) (pr : Option Nat) :
    insertBlock pd.blockchain (pd.mineBlock bt pr).block =
      .ok (pd.blockchain ++ [(pd.mineBlock bt pr).block]) := by
  simp [insertBlock, ProviderData.mineBlock]

/-- Claim C8: after a successful `mine_and_commit_block` the last block
number is exactly one greater than before, the new tip's parent hash is
the hash of the previous tip, and the next-block base fee and next-block
timestamp are cleared. -/
theorem mine_and_commit_block_advances_tip (pd : ProviderData) (C : Nat)
    (ts : Option Nat) (blk : Block) (pd1 : ProviderData)
    (h : pd.mineAndCommitBlock C ts = .ok (blk, pd1)) :
    lastBlockNumber pd1.blockchain = lastBlockNumber pd.blockchain + 1 ∧
    (lastBlock pd1.blockchain).header.parentHash =
      blockHash (lastBlock pd.blockchain) ∧
    pd1.nextBlockBaseFeePerGas = none ∧
    pd1.nextBlockTimestamp = none := by
  unfold ProviderData.mineAndCommitBlock at h
  split at h
  · cases h
  · rename_i bt no
    dsimp only at h
    rw [insertBlock_mineBlock] at h
    dsimp only at h
    cases h
    refine ⟨?_, ?_, rfl, rfl⟩
    · simp [lastBlockNumber, lastBlock, getLastD_append_single,
        ProviderData.mineBlock]
    · simp [lastBlock, getLastD_append_single, ProviderData.mineBlock]

/-- Witness for C8: the concrete successful mine advances the tip from
the genesis (number 0) to number 1, links it by hash, and clears both
next-block overrides. -/
theorem mine_and_commit_block_advances_tip_witness :
    lastBlockNumber exMineOutcome.2.blockchain =
      lastBlockNumber exProviderWithBlockFilter.blockchain + 1 ∧
    (lastBlock exMineOutcome.2.blockchain).header.parentHash =
      blockHash (lastBlock exProviderWithBlockFilter.blockchain) ∧
    exMineOutcome.2.nextBlockBaseFeePerGas = none ∧
    exMineOutcome.2.nextBlockTimestamp = none :=
  mine_and_commit_block_advances_tip exProviderWithBlockFilter 100 none
    exMineOutcome.1 exMineOutcome.2 (by decide)

end EdrProvider
